import Mathlib

/-!
Verification development for reflectub, a GitHub-account mirroring tool.

The definitions below are a shallow embedding of the Rust sources:
  - `src/github.rs`  — the remote repository descriptor (`github::Repo`),
  - `src/database.rs` — the catalog record (`database::Repo`), the SQLite-backed
    catalog operations (`repo_get`, `repo_insert`, `repo_is_updated`,
    `repo_update`) and the timestamp derivation (`From<&github::Repo> for Repo`),
  - `src/main.rs` — the per-repository synchronization pipeline (`process_repo`,
    `is_repo_oversize`, `clone_path`, `mirror`, `update`, `update_mtime`,
    `set_agefile_time`, `repo_cgitrc_set_defbranch`) and the run driver (`run`),
  - `src/multi_error.rs` — error accumulation.

External collaborators (the git library, the OS filesystem, the HTTP fetcher)
are modelled by explicit oracle inputs (`Env`) and an explicit filesystem state
(`Fs`); catalog state is an explicit list of rows threaded through the
functions.  Timestamps are parsed by an executable model of chrono's
`DateTime::parse_from_rfc3339` into an `Instant` (seconds since the Unix epoch
plus nanoseconds, offset applied), and the catalog's freshness comparison
models SQLite's `datetime(x) < datetime(y)` (normalization to whole-second UTC
text; strings that do not parse compare as NULL, hence false).
-/

/-- An absolute point in time: seconds since the Unix epoch (UTC) and a
sub-second nanosecond part.  chrono's `DateTime<FixedOffset>` compares by the
instant it denotes, which is exactly the lexicographic order on
(`secs`, `nanos`). -/
structure Instant where
  secs : Int
  nanos : Nat
deriving DecidableEq, Repr

/-- Strict instant order, as chrono's `>` / `<` on `DateTime` values. -/
def Instant.ltb (a b : Instant) : Bool :=
  a.secs < b.secs || (a.secs == b.secs && a.nanos < b.nanos)

/-- Non-strict instant order. -/
def Instant.leb (a b : Instant) : Bool :=
  a.secs < b.secs || (a.secs == b.secs && a.nanos ≤ b.nanos)

/-- Numeric value of an ASCII digit. -/
def digitVal (c : Char) : Option Nat :=
  if '0' ≤ c ∧ c ≤ '9' then some (c.toNat - 48) else none

/-- Read exactly `n` ASCII digits, most significant first, on top of `acc`. -/
def readNDigits : Nat → Nat → List Char → Option (Nat × List Char)
  | 0, acc, cs => some (acc, cs)
  | n + 1, acc, c :: cs =>
      match digitVal c with
      | some d => readNDigits n (acc * 10 + d) cs
      | none => none
  | _ + 1, _, [] => none

/-- Expect a specific character. -/
def expectChar (c : Char) : List Char → Option (List Char)
  | c' :: cs => if c' = c then some cs else none
  | [] => none

/-- Expect the date/time separator (chrono's RFC 3339 parser accepts
uppercase or lowercase `T` as well as a space). -/
def expectSep : List Char → Option (List Char)
  | c :: cs => if c = 'T' ∨ c = 't' ∨ c = ' ' then some cs else none
  | [] => none

/-- Consume fractional-second digits; returns the value of the first (at most
nine) digits, the capped digit count, and the rest of the input.  Digits past
the ninth are consumed but ignored, as chrono does. -/
def fracLoop : List Char → Nat → Nat → Nat × Nat × List Char
  | c :: cs, acc, k =>
      match digitVal c with
      | some d => if k < 9 then fracLoop cs (acc * 10 + d) (k + 1) else fracLoop cs acc k
      | none => (acc, k, c :: cs)
  | [], acc, k => (acc, k, [])

/-- Optional `.digits` fractional second, in nanoseconds.  A dot must be
followed by at least one digit. -/
def readOptFrac : List Char → Option (Nat × List Char)
  | '.' :: cs =>
      let (acc, k, rest) := fracLoop cs 0 0
      if k = 0 then none else some (acc * 10 ^ (9 - k), rest)
  | cs => some (0, cs)

/-- Numeric UTC offset `HH:MM` in minutes; chrono rejects hour &gt; 23 or
minute &gt; 59 (a `FixedOffset` must be less than a day). -/
def readOffsetHM (cs : List Char) : Option (Nat × List Char) := do
  let (h, cs) ← readNDigits 2 0 cs
  let cs ← expectChar ':' cs
  let (m, cs) ← readNDigits 2 0 cs
  if h ≤ 23 ∧ m ≤ 59 then some (h * 60 + m, cs) else none

/-- Timezone designator: `Z`/`z` or a signed `HH:MM` offset, in minutes. -/
def readOffset : List Char → Option (Int × List Char)
  | 'Z' :: cs => some (0, cs)
  | 'z' :: cs => some (0, cs)
  | '+' :: cs => do
      let (n, cs) ← readOffsetHM cs
      some ((n : Int), cs)
  | '-' :: cs => do
      let (n, cs) ← readOffsetHM cs
      some ((-(n : Int)), cs)
  | _ => none

/-- Gregorian leap-year test. -/
def isLeapYear (y : Nat) : Bool :=
  (y % 4 == 0 && y % 100 != 0) || y % 400 == 0

/-- Number of days in a month (1-based). -/
def daysInMonth (y m : Nat) : Nat :=
  if m = 2 then (if isLeapYear y then 29 else 28)
  else if m = 4 ∨ m = 6 ∨ m = 9 ∨ m = 11 then 30
  else 31

/-- Days from civil date to 1970-01-01, valid for years ≥ 1 (Hinnant's
`days_from_civil` algorithm, computed in `Nat` before the final shift). -/
def daysFromCivilPos (y m d : Nat) : Int :=
  let y' := if m ≤ 2 then y - 1 else y
  let era := y' / 400
  let yoe := y' % 400
  let mp := (m + 9) % 12
  let doy := (153 * mp + 2) / 5 + d - 1
  let doe := yoe * 365 + yoe / 4 - yoe / 100 + doy
  (era * 146097 + doe : Int) - 719468

/-- Days from a civil date (year 0–9999) to 1970-01-01; shifts the year by
400 to stay in `Nat` territory and compensates with one 400-year era. -/
def daysFromCivil (y m d : Nat) : Int :=
  daysFromCivilPos (y + 400) m d - 146097

/-- Model of chrono's `DateTime::parse_from_rfc3339`: strict
`YYYY-MM-DD` `T` `HH:MM:SS[.frac]` `(Z|±HH:MM)` with full range validation,
yielding the denoted instant.  Leap seconds (second = 60) are treated as
unparsable in this model; no input in this development uses them. -/
def parse_from_rfc3339 (s : String) : Option Instant := do
  let cs := s.data
  let (y, cs) ← readNDigits 4 0 cs
  let cs ← expectChar '-' cs
  let (mo, cs) ← readNDigits 2 0 cs
  let cs ← expectChar '-' cs
  let (d, cs) ← readNDigits 2 0 cs
  let cs ← expectSep cs
  let (h, cs) ← readNDigits 2 0 cs
  let cs ← expectChar ':' cs
  let (mi, cs) ← readNDigits 2 0 cs
  let cs ← expectChar ':' cs
  let (sec, cs) ← readNDigits 2 0 cs
  let (nanos, cs) ← readOptFrac cs
  let (off, cs) ← readOffset cs
  if cs = [] ∧ 1 ≤ mo ∧ mo ≤ 12 ∧ 1 ≤ d ∧ d ≤ daysInMonth y mo
      ∧ h ≤ 23 ∧ mi ≤ 59 ∧ sec ≤ 59 then
    some ⟨daysFromCivil y mo d * 86400 + (h * 3600 + mi * 60 + sec : Nat) - off * 60, nanos⟩
  else
    none

/-- `github::Repo` (src/github.rs): the remote repository descriptor as
deserialized from the GitHub API.  The `pushed_at` field is read by
`database.rs` and `main.rs`.  `size` is in kilobytes (a `u64`). -/
structure GithubRepo where
  id : Int
  name : String
  description : Option String
  fork : Bool
  git_url : String
  default_branch : String
  size : Nat
  updated_at : String
  pushed_at : String
deriving DecidableEq, Repr

/-- `github::Repo::description()`: the description or `""` if `None`. -/
def GithubRepo.descriptionStr (r : GithubRepo) : String :=
  r.description.getD ""

/-- `database::Repo` (src/database.rs): one row of the `repositories` table. -/
structure DbRepo where
  id : Int
  name : Option String
  description : Option String
  default_branch : Option String
  updated_at : Option String
deriving DecidableEq, Repr

/-- `database::Repo::description()`. -/
def DbRepo.descriptionStr (r : DbRepo) : String :=
  r.description.getD ""

/-- The `updated_at` computation inside `impl From<&github::Repo> for
database::Repo` (src/database.rs): parse both timestamp strings; if both
fail, keep the raw `updated_at`; otherwise evaluate
`repo_pushed_at.unwrap() > repo_updated_at.unwrap()` — so when exactly one
of the two parses, `Option::unwrap` is applied to `None` and the thread
panics.  `none` here models that panic. -/
def effectiveUpdatedAt (repo : GithubRepo) : Option String :=
  let repo_updated_at := parse_from_rfc3339 repo.updated_at
  let repo_pushed_at := parse_from_rfc3339 repo.pushed_at
  if repo_updated_at.isNone && repo_pushed_at.isNone then
    some repo.updated_at
  else
    match repo_pushed_at, repo_updated_at with
    | some p, some u => some (if Instant.ltb u p then repo.pushed_at else repo.updated_at)
    | _, _ => none

/-- `impl From<&github::Repo> for database::Repo` (src/database.rs):
`none` models the panic inside the timestamp derivation. -/
def dbRepoFrom (repo : GithubRepo) : Option DbRepo :=
  (effectiveUpdatedAt repo).map (fun ua =>
    { id := repo.id
      name := some repo.name
      description := repo.description
      default_branch := some repo.default_branch
      updated_at := some ua })

/-- The `repositories` table: a list of rows.  `Db::create` installs a unique
index on `id`; `repo_insert` below enforces it. -/
abbrev Catalog := List DbRepo

/-- `Db::repo_get`: exact lookup by id.  `none` models the
`rusqlite::Error::QueryReturnedNoRows` error (connection-pool failures are
not modelled). -/
def repo_get (db : Catalog) (id : Int) : Option DbRepo :=
  db.find? (fun r => r.id == id)

/-- `Db::repo_insert`: INSERT a new row; `none` models the SQLITE_CONSTRAINT
failure of the unique index on `id` when a row with this id already exists. -/
def repo_insert (db : Catalog) (r : DbRepo) : Option Catalog :=
  if db.any (fun x => x.id == r.id) then none
  else some (db ++ [r])

/-- SQLite's `datetime(a) < datetime(b)` on two TEXT values: `datetime`
normalizes a parsable timestamp to whole-second UTC text
(`YYYY-MM-DD HH:MM:SS`, fractional seconds dropped, offset applied), and
returns NULL otherwise; comparing against NULL selects nothing.  Restricted
to the RFC 3339 subset this program stores: other SQLite-parsable spellings
are treated as NULL here. -/
def sqliteDatetimeLt (a b : Option String) : Bool :=
  match a.bind parse_from_rfc3339, b.bind parse_from_rfc3339 with
  | some x, some y => x.secs < y.secs
  | _, _ => false

/-- `Db::repo_is_updated`: `SELECT 1 FROM repositories WHERE id = ? AND
datetime(updated_at) < datetime(?)`; true iff the row with this id exists and
its stored timestamp normalizes strictly earlier than the candidate's. -/
def repo_is_updated (db : Catalog) (repo : DbRepo) : Bool :=
  match repo_get db repo.id with
  | some stored => sqliteDatetimeLt stored.updated_at repo.updated_at
  | none => false

/-- `Db::repo_update`: UPDATE name, description, default_branch, updated_at
of the row whose id matches; a no-op when no row matches. -/
def repo_update (db : Catalog) (repo : DbRepo) : Catalog :=
  db.map (fun x => if x.id == repo.id then repo else x)

/-- Number of catalog rows carrying a given id. -/
def countId (db : Catalog) (id : Int) : Nat :=
  (db.filter (fun r => r.id == id)).length

/-- `std::io::ErrorKind`, restricted to the kinds this program inspects. -/
inductive IoErrorKind
  | notFound
  | alreadyExists
  | other (code : Nat)
deriving DecidableEq, Repr

/-- The per-repository errors `process_repo` can surface (an `anyhow::Error`
in the source). -/
inductive SyncError
  | git (code : Nat)
  | parseTime (s : String)
  | io (k : IoErrorKind) (path : String)
  | dbAlreadyExists (id : Int)
deriving DecidableEq, Repr

/-- A file in the modelled filesystem.  `mtime = none` models a wall-clock
modification time not derived from repository data; `filetime::set_file_times`
installs an explicit `Instant`. -/
structure FsFile where
  content : String
  mtime : Option Instant
deriving DecidableEq, Repr

/-- The modelled filesystem: directories and files keyed by absolute path.
The model assumes no path is both a file and a directory. -/
structure Fs where
  dirs : List String
  files : List (String × FsFile)
deriving DecidableEq, Repr

/-- Does a file exist at this path? -/
def Fs.hasFile (fs : Fs) (path : String) : Bool :=
  (fs.files.find? (fun p => p.1 == path)).isSome

/-- Content of the file at this path, if present. -/
def Fs.fileContent (fs : Fs) (path : String) : Option String :=
  (fs.files.find? (fun p => p.1 == path)).map (fun p => p.2.content)

/-- Does a directory exist at this path? -/
def Fs.hasDir (fs : Fs) (path : String) : Bool :=
  fs.dirs.contains path

/-- Replace the modification time of an existing file. -/
def Fs.setMtime (fs : Fs) (path : String) (t : Instant) : Fs :=
  { fs with files := fs.files.map (fun p =>
      if p.1 == path then (p.1, { p.2 with mtime := some t }) else p) }

/-- Create or truncate-and-rewrite the file at `path` with `content`
(its modification time becomes wall-clock time). -/
def Fs.writeFile (fs : Fs) (path content : String) : Fs :=
  { fs with files :=
      (fs.files.filter (fun p => p.1 != path)) ++ [(path, ⟨content, none⟩)] }

/-- Append to the file at `path`, creating it if absent. -/
def Fs.appendFile (fs : Fs) (path chunk : String) : Fs :=
  match fs.fileContent path with
  | some old => fs.writeFile path (old ++ chunk)
  | none => fs.writeFile path chunk

/-- Drop characters of a reversed path up to and including the first
slash. -/
def dropUntilSlash : List Char → List Char
  | [] => []
  | c :: cs => if c = '/' then cs else dropUntilSlash cs

/-- Parent directory of a `/`-separated path: everything before the last
slash (empty when there is none). -/
def parentDir (p : String) : String :=
  String.mk (dropUntilSlash p.data.reverse).reverse

/-- Observable operations performed by the pipeline, in order.  Only
successful mutations and catalog accesses are recorded. -/
inductive Effect
  | dbGet (id : Int)
  | dbIsUpdated (id : Int)
  | dbInsert (id : Int)
  | dbUpdate (id : Int)
  | gitMirror (url path : String)
  | gitFetchUpdate (path : String)
  | gitChangeBranch (path branch : String)
  | fsCopyFile (src dst : String)
  | fsWriteDescription (path content : String)
  | fsAppendFile (path chunk : String)
  | fsSetFileTimes (path : String) (t : Instant)
  | fsCreateDir (path : String)
  | fsWriteFile (path content : String)
deriving DecidableEq, Repr

/-- Oracle for the external collaborators: results of git-library calls and
injected faults for filesystem syscalls (`none` = the call behaves
normally / succeeds).  `raceInsert` is a row committed by a concurrently
running worker between this worker's catalog lookup and its insert. -/
structure Env where
  gitMirrorResult : Option Nat := none
  gitUpdateResult : Option Nat := none
  gitChangeBranchResult : Option Nat := none
  copyCgitrcFault : Option IoErrorKind := none
  descriptionWriteFault : Option IoErrorKind := none
  cgitrcAppendFault : Option IoErrorKind := none
  setTimesFaultRef : Option IoErrorKind := none
  setTimesFaultPacked : Option IoErrorKind := none
  createDirFault : Option IoErrorKind := none
  agefileWriteFault : Option IoErrorKind := none
  raceInsert : Option DbRepo := none

/-- `filetime::set_file_times`: succeeds on an existing file, reports
`NotFound` on a missing one; `fault` injects any other OS failure. -/
def setFileTimes (fs : Fs) (path : String) (t : Instant)
    (fault : Option IoErrorKind) : Except IoErrorKind Fs :=
  match fault with
  | some k => .error k
  | none =>
      if fs.hasFile path then .ok (fs.setMtime path t) else .error .notFound

/-- `fs::DirBuilder::new().create` (non-recursive): fails with
`AlreadyExists` if the directory exists, with `NotFound` if its parent is
missing. -/
def createDir (fs : Fs) (path : String) (fault : Option IoErrorKind) :
    Except IoErrorKind Fs :=
  match fault with
  | some k => .error k
  | none =>
      if fs.hasDir path then .error .alreadyExists
      else if fs.hasDir (parentDir path) then .ok { fs with dirs := path :: fs.dirs }
      else .error .notFound

/-- `set_agefile_time` (src/main.rs): create the `info/web` directory, then
create/truncate `info/web/last-modified` and `writeln!` the update time into
it (so the file content is the timestamp followed by a newline). -/
def set_agefile_time (repoPath updateTime : String) (env : Env) (fs : Fs) :
    Except SyncError Unit × Fs × List Effect :=
  let agefileDir := repoPath ++ "/info/web"
  match createDir fs agefileDir env.createDirFault with
  | .error k => (.error (.io k agefileDir), fs, [])
  | .ok fs1 =>
      let agefilePath := agefileDir ++ "/last-modified"
      match env.agefileWriteFault with
      | some k => (.error (.io k agefilePath), fs1, [.fsCreateDir agefileDir])
      | none =>
          (.ok (), fs1.writeFile agefilePath (updateTime ++ "\n"),
           [.fsCreateDir agefileDir, .fsWriteFile agefilePath (updateTime ++ "\n")])

/-- `update_mtime` (src/main.rs): parse the descriptor's `pushed_at` (an
error if it is not RFC 3339), then set file times on the default branch's
ref file; on `NotFound` fall through to `packed-refs`; on `NotFound` again,
write the CGit agefile.  Any non-`NotFound` error at a step is returned. -/
def update_mtime (repoPath : String) (repo : GithubRepo) (env : Env) (fs : Fs) :
    Except SyncError Unit × Fs × List Effect :=
  match parse_from_rfc3339 repo.pushed_at with
  | none => (.error (.parseTime repo.pushed_at), fs, [])
  | some t =>
      let refPath := repoPath ++ "/refs/heads/" ++ repo.default_branch
      match setFileTimes fs refPath t env.setTimesFaultRef with
      | .ok fs1 => (.ok (), fs1, [.fsSetFileTimes refPath t])
      | .error .notFound =>
          let packedPath := repoPath ++ "/packed-refs"
          (match setFileTimes fs packedPath t env.setTimesFaultPacked with
           | .ok fs1 => (.ok (), fs1, [.fsSetFileTimes packedPath t])
           | .error .notFound => set_agefile_time repoPath repo.pushed_at env fs
           | .error k => (.error (.io k packedPath), fs, []))
      | .error k => (.error (.io k refPath), fs, [])

/-- `repo_cgitrc_append` (src/main.rs): append a line to the repo-local
`cgitrc` file (created if absent). -/
def repo_cgitrc_append (repoPath config : String) (env : Env) (fs : Fs) :
    Except SyncError Unit × Fs × List Effect :=
  let cgitrcPath := repoPath ++ "/cgitrc"
  match env.cgitrcAppendFault with
  | some k => (.error (.io k cgitrcPath), fs, [])
  | none =>
      (.ok (), fs.appendFile cgitrcPath (config ++ "\n"),
       [.fsAppendFile cgitrcPath (config ++ "\n")])

/-- `repo_cgitrc_set_defbranch` (src/main.rs). -/
def repo_cgitrc_set_defbranch (repoPath defaultBranch : String) (env : Env) (fs : Fs) :
    Except SyncError Unit × Fs × List Effect :=
  repo_cgitrc_append repoPath ("defbranch=" ++ defaultBranch) env fs

/-- `git::update_description` (src/git.rs): open the mirror's `description`
file with write+truncate (no create: a missing file is a `NotFound` error)
and write the description (a trailing newline unless it is empty). -/
def update_description (repoPath description : String) (env : Env) (fs : Fs) :
    Except SyncError Unit × Fs × List Effect :=
  let descPath := repoPath ++ "/description"
  match env.descriptionWriteFault with
  | some k => (.error (.io k descPath), fs, [])
  | none =>
      if fs.hasFile descPath then
        let content := if description = "" then "" else description ++ "\n"
        (.ok (), fs.writeFile descPath content, [.fsWriteDescription descPath content])
      else (.error (.io .notFound descPath), fs, [])

/-- `fs::copy` of the base cgitrc into the new mirror: `NotFound` if the
source is missing, else the destination is created/overwritten. -/
def copyFile (src dst : String) (fault : Option IoErrorKind) (fs : Fs) :
    Except SyncError Unit × Fs × List Effect :=
  match fault with
  | some k => (.error (.io k dst), fs, [])
  | none =>
      match fs.fileContent src with
      | some c => (.ok (), fs.writeFile dst c, [.fsCopyFile src dst])
      | none => (.error (.io .notFound src), fs, [])

/-- `clone_path` (src/main.rs): `<root>/<name>.git` for non-forks,
`<root>/fork/<name>.git` for forks. -/
def clone_path (basePath : String) (repo : GithubRepo) : String :=
  let gitDir := repo.name ++ ".git"
  if repo.fork then basePath ++ "/fork/" ++ gitDir
  else basePath ++ "/" ++ gitDir

/-- `is_repo_oversize` (src/main.rs): `size_kilobytes * 1000 >
max_repo_size_bytes` where both sides are `u64` (the multiplication wraps
modulo 2^64 in a release build). -/
def is_repo_oversize (sizeKilobytes maxRepoSizeBytes : Nat) : Bool :=
  sizeKilobytes * 1000 % 2 ^ 64 > maxRepoSizeBytes

/-- The base-cgitrc copy inside `mirror` (a no-op when no base cgitrc was
given on the command line). -/
def mirror_copy_step (clonePath : String) (base : Option String) (env : Env)
    (fs : Fs) : Except SyncError Unit × Fs × List Effect :=
  match base with
  | some b => copyFile b (clonePath ++ "/cgitrc") env.copyCgitrcFault fs
  | none => (.ok (), fs, [])

/-- The cgitrc default-branch record inside `mirror`, written only for a
non-`master` default branch. -/
def mirror_defbranch_step (clonePath : String) (repo : GithubRepo) (env : Env)
    (fs : Fs) : Except SyncError Unit × Fs × List Effect :=
  if repo.default_branch ≠ "master" then
    repo_cgitrc_set_defbranch clonePath repo.default_branch env fs
  else (.ok (), fs, [])

/-- `mirror` (src/main.rs): `git::mirror` (clone --mirror with the
description and default branch), then copy the base cgitrc if one was given,
then record a non-`master` default branch in the cgitrc, then
`update_mtime`; each later step runs only if the earlier ones succeeded.
The git library's own writes inside the mirror directory are outside this
model; filesystem preconditions of `update_mtime` theorems are stated on
the `Fs` argument explicitly. -/
def mirror (clonePath : String) (repo : GithubRepo) (baseCgitrc : Option String)
    (env : Env) (fs : Fs) : Except SyncError Unit × Fs × List Effect :=
  match env.gitMirrorResult with
  | some code => (.error (.git code), fs, [])
  | none =>
      let step : Except SyncError Unit × Fs × List Effect :=
        match mirror_copy_step clonePath baseCgitrc env fs with
        | (.error e, fs1, effs) => (.error e, fs1, effs)
        | (.ok _, fs1, effs) =>
            match mirror_defbranch_step clonePath repo env fs1 with
            | (.error e, fs2, effs2) => (.error e, fs2, effs ++ effs2)
            | (.ok _, fs2, effs2) =>
                let (r, fs3, effs3) := update_mtime clonePath repo env fs2
                (r, fs3, effs ++ effs2 ++ effs3)
      (step.1, step.2.1, Effect.gitMirror repo.git_url clonePath :: step.2.2)

/-- The description reconciliation inside `update`, performed only when the
stored description differs from the descriptor's. -/
def update_desc_step (repoPath : String) (current : DbRepo) (repo : GithubRepo)
    (env : Env) (fs : Fs) : Except SyncError Unit × Fs × List Effect :=
  if current.descriptionStr ≠ repo.descriptionStr then
    update_description repoPath repo.descriptionStr env fs
  else (.ok (), fs, [])

/-- The default-branch reconciliation inside `update`: performed only when
the stored record carries a default branch
(`if let Some(default_branch) = &current_repo.default_branch`) and it
differs from the descriptor's; switches the git HEAD, then appends the
cgitrc record. -/
def update_branch_step (repoPath : String) (current : DbRepo) (repo : GithubRepo)
    (env : Env) (fs : Fs) : Except SyncError Unit × Fs × List Effect :=
  match current.default_branch with
  | some defaultBranch =>
      if defaultBranch ≠ repo.default_branch then
        match env.gitChangeBranchResult with
        | some code => (.error (.git code), fs, [])
        | none =>
            let (r, fs2, effs2) := repo_cgitrc_set_defbranch repoPath repo.default_branch env fs
            (r, fs2, Effect.gitChangeBranch repoPath repo.default_branch :: effs2)
      else (.ok (), fs, [])
  | none => (.ok (), fs, [])

/-- `update` (src/main.rs): `git::update` (fetch with pruning), rewrite the
description file if it changed, reconcile the default branch only when the
stored record carries one, then `update_mtime`; each later step runs only
if the earlier ones succeeded. -/
def update (repoPath : String) (currentRepo : DbRepo) (updatedRepo : GithubRepo)
    (env : Env) (fs : Fs) : Except SyncError Unit × Fs × List Effect :=
  match env.gitUpdateResult with
  | some code => (.error (.git code), fs, [])
  | none =>
      let step : Except SyncError Unit × Fs × List Effect :=
        match update_desc_step repoPath currentRepo updatedRepo env fs with
        | (.error e, fs1, effs) => (.error e, fs1, effs)
        | (.ok _, fs1, effs) =>
            match update_branch_step repoPath currentRepo updatedRepo env fs1 with
            | (.error e, fs2, effs2) => (.error e, fs2, effs ++ effs2)
            | (.ok _, fs2, effs2) =>
                let (r, fs3, effs3) := update_mtime repoPath updatedRepo env fs2
                (r, fs3, effs ++ effs2 ++ effs3)
      (step.1, step.2.1, Effect.gitFetchUpdate repoPath :: step.2.2)

/-- The per-repository result, read off the exit points of `process_repo`
(src/main.rs): the source returns `Ok(())` on the skip/create/refresh/
unchanged paths and `Err` otherwise; `panicked` marks the thread panic
inside `database::Repo::from`. -/
inductive Outcome
  | panicked
  | skippedOversize
  | created
  | refreshed
  | unchanged
  | failed (e : SyncError)
deriving DecidableEq, Repr

/-- The command-line configuration that reaches `process_repo`. -/
structure Config where
  mirrorRoot : String
  baseCgitrc : Option String := none
  maxRepoSizeBytes : Option Nat := none

/-- The body of `process_repo` after the size filter: derive the catalog
record (a panic if exactly one timestamp parses), look the id up, and take
the refresh-or-unchanged path or the create path.  `env.raceInsert` is a row
committed by a concurrent worker between this worker's lookup and insert. -/
def process_repo_rest (repo : GithubRepo) (db : Catalog) (cfg : Config)
    (env : Env) (fs : Fs) : Outcome × Catalog × Fs × List Effect :=
  let path := clone_path cfg.mirrorRoot repo
  match dbRepoFrom repo with
  | none => (.panicked, db, fs, [])
  | some dbRepo =>
      match repo_get db repo.id with
      | some currentRepo =>
          if repo_is_updated db dbRepo then
            match update path currentRepo repo env fs with
            | (.ok _, fs1, effs) =>
                (.refreshed, repo_update db dbRepo, fs1,
                 [.dbGet repo.id, .dbIsUpdated repo.id] ++ effs ++ [.dbUpdate repo.id])
            | (.error e, fs1, effs) =>
                (.failed e, db, fs1, [.dbGet repo.id, .dbIsUpdated repo.id] ++ effs)
          else (.unchanged, db, fs, [.dbGet repo.id, .dbIsUpdated repo.id])
      | none =>
          match mirror path repo cfg.baseCgitrc env fs with
          | (.ok _, fs1, effs) =>
              let db1 := match env.raceInsert with
                         | some r => (repo_insert db r).getD db
                         | none => db
              match repo_insert db1 dbRepo with
              | some db2 =>
                  (.created, db2, fs1, [.dbGet repo.id] ++ effs ++ [.dbInsert repo.id])
              | none =>
                  (.failed (.dbAlreadyExists repo.id), db1, fs1, [.dbGet repo.id] ++ effs)
          | (.error e, fs1, effs) =>
              (.failed e, db, fs1, [.dbGet repo.id] ++ effs)

/-- `process_repo` (src/main.rs): the size filter runs first and returns
`Ok(())` — no catalog access, no filesystem access — before anything else. -/
def process_repo (repo : GithubRepo) (db : Catalog) (cfg : Config)
    (env : Env) (fs : Fs) : Outcome × Catalog × Fs × List Effect :=
  match cfg.maxRepoSizeBytes with
  | some maxBytes =>
      if is_repo_oversize repo.size maxBytes then (.skippedOversize, db, fs, [])
      else process_repo_rest repo db cfg env fs
  | none => process_repo_rest repo db cfg env fs

/-- One unit of work handed to the worker pool: a descriptor plus the
behaviour of the external collaborators while it is processed. -/
structure RepoTask where
  repo : GithubRepo
  env : Env

/-- One linearization of the `rayon` parallel iteration in `run`
(src/main.rs): each task runs `process_repo` start to finish; the catalog
and the filesystem are the shared state.  Returns the per-repository
`(name, outcome)` pairs in order together with the final shared state. -/
def runModel (tasks : List RepoTask) (db : Catalog) (cfg : Config) (fs : Fs) :
    List (String × Outcome) × Catalog × Fs :=
  match tasks with
  | [] => ([], db, fs)
  | t :: rest =>
      let (o, db1, fs1, _) := process_repo t.repo db cfg t.env fs
      let (results, db2, fs2) := runModel rest db1 cfg fs1
      ((t.repo.name, o) :: results, db2, fs2)

/-- The error accumulation in `run` (src/main.rs): keep the failed
repositories' errors, each labeled with its repository's name
(`error.context(name)`). -/
def runErrors (results : List (String × Outcome)) : List (String × SyncError) :=
  results.filterMap (fun p =>
    match p.2 with
    | .failed e => some (p.1, e)
    | _ => none)

/-- Did any worker panic?  A panic inside a rayon worker propagates out of
`par_iter` and unwinds `run` and `main`; nothing is caught or reported. -/
def runPanicked (results : List (String × Outcome)) : Bool :=
  results.any (fun p => p.2 == .panicked)

/-- How the process ends: a propagated panic, an `Err(MultiError)` carrying
every accumulated error, or `Ok`. -/
inductive RunExit
  | panic
  | errors (errs : List (String × SyncError))
  | ok
deriving DecidableEq, Repr

/-- `run` + `main` (src/main.rs): collect every labeled failure; return them
all if there are any; a worker panic instead unwinds the process. -/
def runExit (tasks : List RepoTask) (db : Catalog) (cfg : Config) (fs : Fs) :
    RunExit :=
  let results := (runModel tasks db cfg fs).1
  if runPanicked results then .panic
  else
    let errs := runErrors results
    if errs.isEmpty then .ok else .errors errs

/-- The process exit code: 101 for a Rust panic, `exitcode::SOFTWARE` (70)
when `run` returns an error list, 0 otherwise. -/
def exitCode (e : RunExit) : Nat :=
  match e with
  | .panic => 101
  | .errors _ => 70
  | .ok => 0


/-- Decidable equality of call results, so that concrete executions can be
settled by evaluation. -/
instance {e a : Type} [DecidableEq e] [DecidableEq a] : DecidableEq (Except e a) :=
  fun x y =>
    match x, y with
    | .ok u, .ok v => if h : u = v then .isTrue (by rw [h]) else .isFalse (by simp [h])
    | .error u, .error v => if h : u = v then .isTrue (by rw [h]) else .isFalse (by simp [h])
    | .ok _, .error _ => .isFalse (by simp)
    | .error _, .ok _ => .isFalse (by simp)

/-- Does the effect list contain a git-level branch switch? -/
def hasChangeBranch (effs : List Effect) : Bool :=
  effs.any (fun e =>
    match e with
    | .gitChangeBranch _ _ => true
    | _ => false)

/-- Does the effect list contain an append to a repo-local cgitrc file? -/
def hasCgitrcAppend (effs : List Effect) : Bool :=
  effs.any (fun e =>
    match e with
    | .fsAppendFile _ _ => true
    | _ => false)

/-- Does the configured size filter let this descriptor through? -/
def sizeFilterPasses (repo : GithubRepo) (cfg : Config) : Bool :=
  match cfg.maxRepoSizeBytes with
  | some m => !is_repo_oversize repo.size m
  | none => true

/-! ### Concrete sample data reused by several claims -/

/-- A baseline descriptor with the given update/push timestamp strings. -/
def sampleRepo (u p : String) : GithubRepo :=
  { id := 1, name := "r", description := none, fork := false,
    git_url := "git://example/r", default_branch := "master", size := 1,
    updated_at := u, pushed_at := p }

/-- A stored catalog row with effective timestamp 2021-01-01T00:00:00Z. -/
def c3Stored : DbRepo :=
  { id := 1, name := some "r", description := none,
    default_branch := some "main", updated_at := some "2021-01-01T00:00:00Z" }

/-- A ready-to-mirror filesystem: the mirror directory with a `master` ref
file present. -/
def c4Fs : Fs :=
  { dirs := ["/m", "/m/r.git", "/m/r.git/refs", "/m/r.git/refs/heads"],
    files := [("/m/r.git/refs/heads/master", ⟨"", none⟩)] }

/-- `c4Fs` after the ref file received mtime 2021-06-01T00:00:00Z. -/
def c4Fs1 : Fs :=
  { dirs := ["/m", "/m/r.git", "/m/r.git/refs", "/m/r.git/refs/heads"],
    files := [("/m/r.git/refs/heads/master", ⟨"", some ⟨1622505600, 0⟩⟩)] }

/-- Effects of the successful concrete mirror creation. -/
def c4Effs : List Effect :=
  [.gitMirror "git://example/r" "/m/r.git",
   .fsSetFileTimes "/m/r.git/refs/heads/master" ⟨1622505600, 0⟩]

/-- The catalog record derived from the sample descriptor. -/
def c4Rec : DbRepo :=
  { id := 1, name := some "r", description := none,
    default_branch := some "master", updated_at := some "2021-06-01T00:00:00Z" }

/-- The stored catalog row matching the sample descriptor at the same
effective timestamp. -/
def c5Stored : DbRepo :=
  { id := 1, name := some "r", description := none,
    default_branch := some "master", updated_at := some "2021-06-01T00:00:00Z" }

/-- Is the first component of a pipeline-step result an error? -/
def resultIsError (r : Except SyncError Unit × Fs × List Effect) : Bool :=
  match r.1 with
  | .error _ => true
  | .ok _ => false

/-- Descriptor used for the timestamp-projection claims (push time
2021-01-01T00:00:00Z). -/
def c6Repo : GithubRepo := sampleRepo "2021-01-01T00:00:00Z" "2021-01-01T00:00:00Z"

/-- A mirror with no ref file and no packed-refs file, whose `info`
directory exists but whose `info/web` directory does not. -/
def c6FsNoRefs : Fs := { dirs := ["/m/r.git", "/m/r.git/info"], files := [] }

/-- A mirror with no ref file and no packed-refs file where the `info/web`
directory already exists (e.g. from an earlier age-file write). -/
def c6FsWebDir : Fs :=
  { dirs := ["/m/r.git", "/m/r.git/info", "/m/r.git/info/web"], files := [] }

/-- A descriptor that syncs cleanly (both timestamps parse). -/
def c8Good : GithubRepo := sampleRepo "2021-01-01T00:00:00Z" "2021-06-01T00:00:00Z"

/-- A descriptor whose push time does not parse while its update time does:
`database::Repo::from` panics on it. -/
def c8Panic : GithubRepo :=
  { sampleRepo "2021-01-01T00:00:00Z" "not-a-time" with id := 2, name := "r2" }

/-- A descriptor whose git-level mirror creation fails. -/
def c8Err : GithubRepo :=
  { sampleRepo "2021-01-01T00:00:00Z" "2021-06-01T00:00:00Z" with id := 3, name := "r3" }

/-- A run containing a repository that panics during timestamp derivation. -/
def c8TasksPanic : List RepoTask := [⟨c8Good, {}⟩, ⟨c8Panic, {}⟩]

/-- A run containing a repository whose mirror creation fails with an
ordinary error. -/
def c8TasksErr : List RepoTask := [⟨c8Good, {}⟩, ⟨c8Err, { gitMirrorResult := some 5 }⟩]


/-- A stored record carrying no default branch (written before default
branches were tracked). -/
def c10Current : DbRepo :=
  { id := 1, name := some "r", description := none, default_branch := none,
    updated_at := some "2021-01-01T00:00:00Z" }

/-- A newer descriptor whose default branch is `main`. -/
def c10Repo : GithubRepo :=
  { sampleRepo "2021-06-01T00:00:00Z" "2021-06-01T00:00:00Z" with default_branch := "main" }

/-- The mirror of `c10Repo` with its `main` ref file. -/
def c10Fs : Fs :=
  { dirs := ["/m/r.git"], files := [("/m/r.git/refs/heads/main", ⟨"", none⟩)] }

/-- The catalog record derived from `c10Repo`. -/
def c10Rec : DbRepo :=
  { id := 1, name := some "r", description := none, default_branch := some "main",
    updated_at := some "2021-06-01T00:00:00Z" }

/-- `c10Fs` after the refresh set the ref file's mtime. -/
def c10Fs1 : Fs :=
  { dirs := ["/m/r.git"],
    files := [("/m/r.git/refs/heads/main", ⟨"", some ⟨1622505600, 0⟩⟩)] }

/-- Effects of the concrete refresh of `c10Repo`. -/
def c10Effs : List Effect :=
  [.gitFetchUpdate "/m/r.git", .fsSetFileTimes "/m/r.git/refs/heads/main" ⟨1622505600, 0⟩]


/-! ### Facts shared across the claim theorems -/

/-- `leb` implies the whole-second parts are ordered. -/
theorem Instant.leb_secs {a b : Instant} (h : a.leb b = true) : a.secs ≤ b.secs := by
  unfold Instant.leb at h
  simp only [Bool.or_eq_true, Bool.and_eq_true, decide_eq_true_eq, beq_iff_eq] at h
  rcases h with h | ⟨h, _⟩ <;> omega

/-- The identifier of a successfully derived catalog record is the
descriptor's identifier. -/
theorem dbRepoFrom_id {repo : GithubRepo} {d : DbRepo}
    (h : dbRepoFrom repo = some d) : d.id = repo.id := by
  unfold dbRepoFrom at h
  cases he : effectiveUpdatedAt repo with
  | none => rw [he] at h; simp at h
  | some ua => rw [he] at h; simp at h; rw [← h]

/-- The default branch of a successfully derived catalog record is the
descriptor's default branch. -/
theorem dbRepoFrom_default_branch {repo : GithubRepo} {d : DbRepo}
    (h : dbRepoFrom repo = some d) : d.default_branch = some repo.default_branch := by
  unfold dbRepoFrom at h
  cases he : effectiveUpdatedAt repo with
  | none => rw [he] at h; simp at h
  | some ua => rw [he] at h; simp at h; rw [← h]


/-- When the size filter passes, `process_repo` is its main body. -/
theorem process_repo_eq_rest (repo : GithubRepo) (db : Catalog) (cfg : Config)
    (env : Env) (fs : Fs) (h : sizeFilterPasses repo cfg = true) :
    process_repo repo db cfg env fs = process_repo_rest repo db cfg env fs := by
  unfold process_repo
  unfold sizeFilterPasses at h
  cases hm : cfg.maxRepoSizeBytes with
  | none => rfl
  | some m => rw [hm] at h; simp at h; simp [h]

/-- An absent id means no row of the catalog matches it. -/
theorem repo_get_none_any_false (db : Catalog) (i : Int)
    (h : repo_get db i = none) : db.any (fun x => x.id == i) = false := by
  unfold repo_get at h
  rw [List.find?_eq_none] at h
  rw [List.any_eq_false]
  intro x hx
  exact h x hx

/-- Inserting a record whose id is absent succeeds and appends the row. -/
theorem repo_insert_of_get_none (db : Catalog) (r : DbRepo)
    (h : repo_get db r.id = none) : repo_insert db r = some (db ++ [r]) := by
  unfold repo_insert
  rw [repo_get_none_any_false db r.id h]
  simp

/-- After appending a fresh row, exactly one row carries its id. -/
theorem countId_append_new (db : Catalog) (d : DbRepo) (i : Int)
    (hget : repo_get db i = none) (hd : d.id = i) :
    countId (db ++ [d]) i = 1 := by
  unfold countId
  unfold repo_get at hget
  rw [List.find?_eq_none] at hget
  rw [List.filter_append]
  have h1 : db.filter (fun r => r.id == i) = [] := by
    rw [List.filter_eq_nil_iff]
    intro x hx
    exact hget x hx
  rw [h1]
  simp [hd]

/-- After appending a fresh row, looking its id up finds it. -/
theorem repo_get_append_new (db : Catalog) (d : DbRepo) (i : Int)
    (hget : repo_get db i = none) (hd : d.id = i) :
    repo_get (db ++ [d]) i = some d := by
  unfold repo_get at *
  rw [List.find?_append, hget]
  simp [List.find?, hd]

/-- `repo_update` replaces the looked-up row when some row carries the id. -/
theorem repo_get_repo_update (db : Catalog) (d : DbRepo) (i : Int) (x : DbRepo)
    (hx : repo_get db i = some x) (hd : d.id = i) :
    repo_get (repo_update db d) i = some d := by
  unfold repo_get repo_update at *
  induction db with
  | nil => simp [List.find?] at hx
  | cons a l ih =>
      by_cases ha : a.id = i
      · have h1 : (a.id == d.id) = true := by rw [hd]; simp [ha]
        simp only [List.map_cons, h1, if_true]
        rw [List.find?_cons_of_pos _ (by simp [hd])]
      · have ha'' : (a.id == d.id) = false := by rw [hd]; simp [ha]
        rw [List.find?_cons_of_neg _ (by simp [ha])] at hx
        simp only [List.map_cons, ha'', Bool.false_eq_true, if_false]
        rw [List.find?_cons_of_neg _ (by simp [ha])]
        exact ih hx

/-- A successful `mirror` records the git-level mirror creation. -/
theorem mirror_ok_effects_head (clonePath : String) (repo : GithubRepo)
    (base : Option String) (env : Env) (fs : Fs) (u : Unit) (fs1 : Fs)
    (effs : List Effect)
    (h : mirror clonePath repo base env fs = (.ok u, fs1, effs)) :
    Effect.gitMirror repo.git_url clonePath ∈ effs := by
  unfold mirror at h
  cases hg : env.gitMirrorResult with
  | some code => rw [hg] at h; simp at h
  | none =>
      rw [hg] at h
      simp only [Prod.mk.injEq] at h
      rw [← h.2.2]
      exact List.mem_cons_self _ _


/-! ### C1 — effective-timestamp derivation -/

/-- C1: the derived effective timestamp is the later of `updated_at` and
`pushed_at` when both parse, and the raw `updated_at` when neither parses;
but when exactly one of the two parses, the derivation does not fall back —
it panics (`Option::unwrap` on `None`), modelled by `none`.  In particular
an unparsable push-time with a parsable update-time does not yield the
update-time string. -/
theorem c1_effective_timestamp_derivation_panics_on_single_unparsable :
    effectiveUpdatedAt (sampleRepo "2021-01-01T00:00:00Z" "2021-06-01T00:00:00Z") =
      some "2021-06-01T00:00:00Z" ∧
    effectiveUpdatedAt (sampleRepo "2021-06-01T00:00:00Z" "2021-01-01T00:00:00Z") =
      some "2021-06-01T00:00:00Z" ∧
    effectiveUpdatedAt (sampleRepo "not-a-time" "also-not-a-time") = some "not-a-time" ∧
    effectiveUpdatedAt (sampleRepo "2021-01-01T00:00:00Z" "not-a-time") = none ∧
    dbRepoFrom (sampleRepo "2021-01-01T00:00:00Z" "not-a-time") = none ∧
    effectiveUpdatedAt (sampleRepo "not-a-time" "2021-01-01T00:00:00Z") = none := by
  decide

/-! ### C3 — the freshness check -/

/-- C3 counterexample: a candidate whose effective timestamp is strictly
later than the stored one — by half a second — is not reported as newer,
because SQLite's `datetime` normalization drops fractional seconds; so
`repo_is_updated` is not "true iff the stored timestamp is strictly
earlier". -/
theorem c3_counterexample_subsecond_difference_not_detected :
    parse_from_rfc3339 "2021-01-01T00:00:00Z" = some ⟨1609459200, 0⟩ ∧
    parse_from_rfc3339 "2021-01-01T00:00:00.5Z" = some ⟨1609459200, 500000000⟩ ∧
    Instant.ltb ⟨1609459200, 0⟩ ⟨1609459200, 500000000⟩ = true ∧
    repo_is_updated [c3Stored]
      { c3Stored with updated_at := some "2021-01-01T00:00:00.5Z" } = false := by
  decide

/-- C3 (amended): for RFC 3339 stored and candidate timestamps,
`repo_is_updated` is true iff the stored timestamp is strictly earlier at
whole-second resolution — a calendar/time-aware comparison (offsets are
normalized to UTC), not a lexicographic one; equal timestamps (equal in
particular at second resolution) yield false. -/
theorem c3_freshness_is_second_resolution_calendar_compare
    (db : Catalog) (cand stored : DbRepo) (sa sb : String) (ta tb : Instant)
    (hget : repo_get db cand.id = some stored)
    (hsa : stored.updated_at = some sa) (hsb : cand.updated_at = some sb)
    (hta : parse_from_rfc3339 sa = some ta)
    (htb : parse_from_rfc3339 sb = some tb) :
    repo_is_updated db cand = true ↔ ta.secs < tb.secs := by
  simp only [repo_is_updated, hget, sqliteDatetimeLt, hsa, hsb, Option.some_bind,
    hta, htb, decide_eq_true_eq]

/-- C3 witness: a concrete instance where the comparison is calendar-aware
and not lexicographic: the stored string "2021-01-01T12:00:00+02:00"
denotes 10:00 UTC, lexicographically above the candidate
"2021-01-01T11:00:00Z" but chronologically below it, and the check
reports the candidate as newer. -/
theorem c3_freshness_witness :
    repo_is_updated [{ c3Stored with updated_at := some "2021-01-01T12:00:00+02:00" }]
      { c3Stored with updated_at := some "2021-01-01T11:00:00Z" } = true := by
  have h := c3_freshness_is_second_resolution_calendar_compare
    [{ c3Stored with updated_at := some "2021-01-01T12:00:00+02:00" }]
    { c3Stored with updated_at := some "2021-01-01T11:00:00Z" }
    { c3Stored with updated_at := some "2021-01-01T12:00:00+02:00" }
    "2021-01-01T12:00:00+02:00" "2021-01-01T11:00:00Z"
    ⟨1609495200, 0⟩ ⟨1609498800, 0⟩
    (by decide) (by decide) (by decide) (by decide) (by decide)
  exact h.mpr (by decide)

/-! ### C7 — the size filter -/

/-- The main body of `process_repo` never produces the size-skip outcome. -/
theorem process_repo_rest_not_skipped (repo : GithubRepo) (db : Catalog)
    (cfg : Config) (env : Env) (fs : Fs) :
    (process_repo_rest repo db cfg env fs).1 ≠ .skippedOversize := by
  unfold process_repo_rest
  cases hfrom : dbRepoFrom repo with
  | none => simp
  | some dbRepo =>
      cases hget : repo_get db repo.id with
      | some currentRepo =>
          by_cases hup : repo_is_updated db dbRepo
          · rcases hu : update (clone_path cfg.mirrorRoot repo) currentRepo repo env fs with
              ⟨r, fs1, effs⟩
            cases r <;> simp [hup, hu]
          · simp [hup]
      | none =>
          rcases hm : mirror (clone_path cfg.mirrorRoot repo) repo cfg.baseCgitrc env fs with
            ⟨r, fs1, effs⟩
          cases r with
          | ok u =>
              cases hins : repo_insert (match env.raceInsert with
                  | some r' => (repo_insert db r').getD db
                  | none => db) dbRepo <;> simp [hm, hins]
          | error e => simp [hm]

/-- C7: with a configured byte threshold and no `u64` overflow in
`size * 1000`, a descriptor whose size (in kilobytes, hence `size * 1000`
bytes) strictly exceeds the threshold is skipped before any catalog or
filesystem access — state and effects are untouched — and a descriptor at
or under the threshold is never skipped by the size filter. -/
theorem c7_size_filter (repo : GithubRepo) (db : Catalog) (cfg : Config)
    (env : Env) (fs : Fs) (m : Nat)
    (hmax : cfg.maxRepoSizeBytes = some m)
    (hnw : repo.size * 1000 < 2 ^ 64) :
    (repo.size * 1000 > m →
       process_repo repo db cfg env fs = (.skippedOversize, db, fs, [])) ∧
    (repo.size * 1000 ≤ m →
       (process_repo repo db cfg env fs).1 ≠ .skippedOversize) := by
  have hov : is_repo_oversize repo.size m = decide (repo.size * 1000 > m) := by
    unfold is_repo_oversize
    rw [Nat.mod_eq_of_lt hnw]
  constructor
  · intro h
    have htrue : is_repo_oversize repo.size m = true := by
      rw [hov]; exact decide_eq_true h
    simp only [process_repo, hmax, htrue, if_true]
  · intro h
    have hfalse : is_repo_oversize repo.size m = false := by
      rw [hov]
      simp only [decide_eq_false_iff_not, gt_iff_lt, not_lt]
      exact h
    simp only [process_repo, hmax, hfalse, Bool.false_eq_true, if_false]
    exact process_repo_rest_not_skipped repo db cfg env fs

/-- C7 witness: threshold 1000 bytes; a 2 kB descriptor is skipped with no
state change, a 1 kB descriptor is not skipped by the filter. -/
theorem c7_size_filter_witness :
    process_repo
        { sampleRepo "2021-01-01T00:00:00Z" "2021-01-01T00:00:00Z" with size := 2 }
        [] { mirrorRoot := "/m", maxRepoSizeBytes := some 1000 } {} ⟨[], []⟩ =
      (.skippedOversize, [], ⟨[], []⟩, []) ∧
    (process_repo
        { sampleRepo "2021-01-01T00:00:00Z" "2021-01-01T00:00:00Z" with size := 1 }
        [] { mirrorRoot := "/m", maxRepoSizeBytes := some 1000 } {} ⟨[], []⟩).1 ≠
      .skippedOversize := by
  constructor
  · exact (c7_size_filter _ [] _ {} ⟨[], []⟩ 1000 (by decide) (by decide)).1 (by decide)
  · exact (c7_size_filter _ [] _ {} ⟨[], []⟩ 1000 (by decide) (by decide)).2 (by decide)

/-! ### C4 — the create path -/

/-- C4: when the identifier is absent from the catalog (and the size filter
passes, the derivation does not panic, no concurrent insert races, and the
mirror creation succeeds), `process_repo` invokes the git-level mirror
creation, inserts exactly the record derived from the descriptor, and
reports the create outcome; afterwards exactly one catalog row carries the
identifier and looking it up yields that derived record. -/
theorem c4_create_path (repo : GithubRepo) (db : Catalog) (cfg : Config)
    (env : Env) (fs : Fs) (dbRepo : DbRepo) (fs1 : Fs) (effs : List Effect)
    (hsize : sizeFilterPasses repo cfg = true)
    (hfrom : dbRepoFrom repo = some dbRepo)
    (hget : repo_get db repo.id = none)
    (hrace : env.raceInsert = none)
    (hmir : mirror (clone_path cfg.mirrorRoot repo) repo cfg.baseCgitrc env fs =
      (.ok (), fs1, effs)) :
    process_repo repo db cfg env fs =
      (.created, db ++ [dbRepo], fs1,
        [Effect.dbGet repo.id] ++ effs ++ [Effect.dbInsert repo.id]) ∧
    Effect.gitMirror repo.git_url (clone_path cfg.mirrorRoot repo) ∈ effs ∧
    countId (db ++ [dbRepo]) repo.id = 1 ∧
    repo_get (db ++ [dbRepo]) repo.id = some dbRepo := by
  have hid : dbRepo.id = repo.id := dbRepoFrom_id hfrom
  have hins : repo_insert db dbRepo = some (db ++ [dbRepo]) :=
    repo_insert_of_get_none db dbRepo (by rw [hid]; exact hget)
  refine ⟨?_, mirror_ok_effects_head _ _ _ _ _ _ _ _ hmir,
    countId_append_new db dbRepo repo.id hget hid,
    repo_get_append_new db dbRepo repo.id hget hid⟩
  rw [process_repo_eq_rest repo db cfg env fs hsize]
  simp only [process_repo_rest, hfrom, hget, hmir, hrace, hins]


/-- C4 witness: the create path on a concrete new repository. -/
theorem c4_create_path_witness :
    (process_repo (sampleRepo "2021-01-01T00:00:00Z" "2021-06-01T00:00:00Z") []
        { mirrorRoot := "/m" } {} c4Fs).1 = .created ∧
    countId (process_repo (sampleRepo "2021-01-01T00:00:00Z" "2021-06-01T00:00:00Z") []
        { mirrorRoot := "/m" } {} c4Fs).2.1 1 = 1 := by
  have h := c4_create_path (sampleRepo "2021-01-01T00:00:00Z" "2021-06-01T00:00:00Z")
    [] { mirrorRoot := "/m" } {} c4Fs c4Rec c4Fs1 c4Effs
    (by decide) (by decide) (by decide) (by decide) (by decide)
  refine ⟨?_, ?_⟩
  · rw [h.1]
  · rw [h.1]
    exact h.2.2.1

/-! ### C5 — the unchanged frame -/

/-- C5: when the identifier is present and the descriptor's derived
effective timestamp is at or before the stored one (both RFC 3339), the
outcome is the unchanged one: the only operations are the two catalog
reads, the catalog and the filesystem are returned untouched, and the
stored record afterwards is byte-for-byte the old one. -/
theorem c5_unchanged_frame (repo : GithubRepo) (db : Catalog) (cfg : Config)
    (env : Env) (fs : Fs) (dbRepo stored : DbRepo) (sa sb : String)
    (ta tb : Instant)
    (hsize : sizeFilterPasses repo cfg = true)
    (hfrom : dbRepoFrom repo = some dbRepo)
    (hget : repo_get db repo.id = some stored)
    (hsa : stored.updated_at = some sa)
    (hsb : dbRepo.updated_at = some sb)
    (hta : parse_from_rfc3339 sa = some ta)
    (htb : parse_from_rfc3339 sb = some tb)
    (hle : tb.leb ta = true) :
    process_repo repo db cfg env fs =
      (.unchanged, db, fs, [Effect.dbGet repo.id, Effect.dbIsUpdated repo.id]) ∧
    repo_get (process_repo repo db cfg env fs).2.1 repo.id = some stored := by
  have hid : dbRepo.id = repo.id := dbRepoFrom_id hfrom
  have hle' : tb.secs ≤ ta.secs := Instant.leb_secs hle
  have hup : repo_is_updated db dbRepo = false := by
    simp only [repo_is_updated, hid, hget, sqliteDatetimeLt, hsa, hsb, Option.some_bind,
      hta, htb, decide_eq_false_iff_not, not_lt]
    exact hle'
  have hmain : process_repo repo db cfg env fs =
      (.unchanged, db, fs, [Effect.dbGet repo.id, Effect.dbIsUpdated repo.id]) := by
    rw [process_repo_eq_rest repo db cfg env fs hsize]
    simp only [process_repo_rest, hfrom, hget, hup, Bool.false_eq_true, if_false]
  refine ⟨hmain, ?_⟩
  rw [hmain]
  exact hget


/-- C5 witness: a concrete equal-timestamp descriptor leaves everything
untouched. -/
theorem c5_unchanged_frame_witness :
    process_repo (sampleRepo "2021-01-01T00:00:00Z" "2021-06-01T00:00:00Z")
        [c5Stored] { mirrorRoot := "/m" } {} c4Fs =
      (.unchanged, [c5Stored], c4Fs, [Effect.dbGet 1, Effect.dbIsUpdated 1]) := by
  have h := c5_unchanged_frame (sampleRepo "2021-01-01T00:00:00Z" "2021-06-01T00:00:00Z")
    [c5Stored] { mirrorRoot := "/m" } {} c4Fs c4Rec c5Stored
    "2021-06-01T00:00:00Z" "2021-06-01T00:00:00Z" ⟨1622505600, 0⟩ ⟨1622505600, 0⟩
    (by decide) (by decide) (by decide) (by decide) (by decide) (by decide) (by decide)
    (by decide)
  exact h.1

/-! ### C2 — a concurrent duplicate create -/

/-- C2 counterexample: with an empty catalog at lookup time and a
concurrent worker inserting the same identifier before this worker's
insert, the outcome is the propagated unique-constraint failure — not a
skip: `process_repo` has no handling that converts the duplicate-id insert
error into a benign outcome. -/
theorem c2_counterexample_race_yields_failed :
    (process_repo (sampleRepo "2021-01-01T00:00:00Z" "2021-06-01T00:00:00Z") []
        { mirrorRoot := "/m" } { raceInsert := some c5Stored } c4Fs).1 =
      .failed (.dbAlreadyExists 1) := by
  decide

/-- C2 (amended): when a racing worker commits a row with the same
identifier between this worker's lookup and insert, the insert fails with
the unique-constraint error and `process_repo` propagates it — the outcome
is the failed one, not a skip — while the catalog keeps exactly one row
with that identifier (the racing winner's); no second row is inserted. -/
theorem c2_race_failed_single_record (repo : GithubRepo) (db : Catalog)
    (cfg : Config) (env : Env) (fs : Fs) (dbRepo r : DbRepo) (fs1 : Fs)
    (effs : List Effect)
    (hsize : sizeFilterPasses repo cfg = true)
    (hfrom : dbRepoFrom repo = some dbRepo)
    (hget : repo_get db repo.id = none)
    (hmir : mirror (clone_path cfg.mirrorRoot repo) repo cfg.baseCgitrc env fs =
      (.ok (), fs1, effs))
    (hrace : env.raceInsert = some r)
    (hrid : r.id = repo.id) :
    process_repo repo db cfg env fs =
      (.failed (.dbAlreadyExists repo.id), db ++ [r], fs1,
        [Effect.dbGet repo.id] ++ effs) ∧
    countId (db ++ [r]) repo.id = 1 := by
  have hid : dbRepo.id = repo.id := dbRepoFrom_id hfrom
  have hinsr : repo_insert db r = some (db ++ [r]) :=
    repo_insert_of_get_none db r (by rw [hrid]; exact hget)
  have hfail : repo_insert (db ++ [r]) dbRepo = none := by
    unfold repo_insert
    have hany : (db ++ [r]).any (fun x => x.id == dbRepo.id) = true := by
      rw [List.any_append]
      simp [hrid, hid]
    rw [hany]
    simp
  constructor
  · rw [process_repo_eq_rest repo db cfg env fs hsize]
    simp only [process_repo_rest, hfrom, hget, hmir, hrace, hinsr, Option.getD_some, hfail]
  · exact countId_append_new db r repo.id hget hrid

/-- C2 witness for the amended claim, at the concrete race instance. -/
theorem c2_race_witness :
    process_repo (sampleRepo "2021-01-01T00:00:00Z" "2021-06-01T00:00:00Z") []
        { mirrorRoot := "/m" } { raceInsert := some c5Stored } c4Fs =
      (.failed (.dbAlreadyExists 1), [c5Stored], c4Fs1,
        [Effect.dbGet 1] ++ c4Effs) ∧
    countId [c5Stored] 1 = 1 := by
  have h := c2_race_failed_single_record
    (sampleRepo "2021-01-01T00:00:00Z" "2021-06-01T00:00:00Z") []
    { mirrorRoot := "/m" } { raceInsert := some c5Stored } c4Fs c4Rec c5Stored c4Fs1 c4Effs
    (by decide) (by decide) (by decide) (by decide) (by decide) (by decide)
  exact h

/-! ### C6 — timestamp projection on a mirror -/

/-- Setting a file's times never creates or removes files. -/
theorem Fs.hasFile_setMtime (fs : Fs) (p : String) (t : Instant) (q : String) :
    (fs.setMtime p t).hasFile q = fs.hasFile q := by
  unfold Fs.hasFile Fs.setMtime
  simp only []
  induction fs.files with
  | nil => rfl
  | cons a l ih =>
      simp only [List.map_cons]
      cases hp : (a.1 == p) with
      | true =>
          simp only [hp, if_true]
          cases hq : (a.1 == q) with
          | true =>
              rw [List.find?_cons_of_pos _ (by simpa using hq),
                List.find?_cons_of_pos _ (by simpa using hq)]
              rfl
          | false =>
              rw [List.find?_cons_of_neg _ (by simp [hq]),
                List.find?_cons_of_neg _ (by simp [hq])]
              exact ih
      | false =>
          simp only [hp, Bool.false_eq_true, if_false]
          cases hq : (a.1 == q) with
          | true =>
              rw [List.find?_cons_of_pos _ (by simpa using hq),
                List.find?_cons_of_pos _ (by simpa using hq)]
          | false =>
              rw [List.find?_cons_of_neg _ (by simp [hq]),
                List.find?_cons_of_neg _ (by simp [hq])]
              exact ih

/-- After a write, the file at that path holds exactly the written
content. -/
theorem Fs.fileContent_writeFile (fs : Fs) (p c : String) :
    (fs.writeFile p c).fileContent p = some c := by
  unfold Fs.fileContent Fs.writeFile
  simp only []
  rw [List.find?_append]
  have h1 : List.find? (fun e => e.1 == p) (fs.files.filter (fun e => e.1 != p)) = none := by
    rw [List.find?_eq_none]
    intro x hx
    have h2 := (List.mem_filter.mp hx).2
    simp only [bne_iff_ne, ne_eq] at h2
    simp only [beq_iff_eq]
    exact h2
  rw [h1]
  simp [List.find?]

/-- C6 (amended): timestamp projection tries the default-branch ref file,
then `packed-refs`, then the age-record file, each later step only after a
not-found at the prior one; with no ref file, no packed-refs and no
pre-existing `info/web` directory (its parent existing) it creates the
age-record file whose content is the timestamp string followed by a
newline; if `info/web` already exists the directory creation fails with
`AlreadyExists` and the repository's sync fails rather than overwriting;
and a non-not-found error at any step — the ref file, the packed-refs
file, or the age-record directory creation — is returned without falling
through to a later step. -/
theorem c6_mtime_projection (repoPath : String) (repo : GithubRepo) (env : Env)
    (fs : Fs) (t : Instant)
    (hparse : parse_from_rfc3339 repo.pushed_at = some t) :
    (env.setTimesFaultRef = none →
      fs.hasFile (repoPath ++ "/refs/heads/" ++ repo.default_branch) = true →
      update_mtime repoPath repo env fs =
        (.ok (), fs.setMtime (repoPath ++ "/refs/heads/" ++ repo.default_branch) t,
          [.fsSetFileTimes (repoPath ++ "/refs/heads/" ++ repo.default_branch) t]) ∧
      (fs.setMtime (repoPath ++ "/refs/heads/" ++ repo.default_branch) t).hasFile
          (repoPath ++ "/info/web/last-modified") =
        fs.hasFile (repoPath ++ "/info/web/last-modified")) ∧
    (env.setTimesFaultRef = none → env.setTimesFaultPacked = none →
      fs.hasFile (repoPath ++ "/refs/heads/" ++ repo.default_branch) = false →
      fs.hasFile (repoPath ++ "/packed-refs") = true →
      update_mtime repoPath repo env fs =
        (.ok (), fs.setMtime (repoPath ++ "/packed-refs") t,
          [.fsSetFileTimes (repoPath ++ "/packed-refs") t])) ∧
    (env.setTimesFaultRef = none → env.setTimesFaultPacked = none →
      env.createDirFault = none → env.agefileWriteFault = none →
      fs.hasFile (repoPath ++ "/refs/heads/" ++ repo.default_branch) = false →
      fs.hasFile (repoPath ++ "/packed-refs") = false →
      fs.hasDir (repoPath ++ "/info/web") = false →
      fs.hasDir (parentDir (repoPath ++ "/info/web")) = true →
      (update_mtime repoPath repo env fs).1 = .ok () ∧
      (update_mtime repoPath repo env fs).2.1.fileContent
          (repoPath ++ "/info/web" ++ "/last-modified") = some (repo.pushed_at ++ "\n")) ∧
    (∀ k : IoErrorKind, env.setTimesFaultRef = some k → k ≠ .notFound →
      update_mtime repoPath repo env fs =
        (.error (.io k (repoPath ++ "/refs/heads/" ++ repo.default_branch)), fs, [])) ∧
    (env.setTimesFaultRef = none → env.setTimesFaultPacked = none →
      env.createDirFault = none →
      fs.hasFile (repoPath ++ "/refs/heads/" ++ repo.default_branch) = false →
      fs.hasFile (repoPath ++ "/packed-refs") = false →
      fs.hasDir (repoPath ++ "/info/web") = true →
      update_mtime repoPath repo env fs =
        (.error (.io .alreadyExists (repoPath ++ "/info/web")), fs, [])) ∧
    (∀ k : IoErrorKind, env.setTimesFaultRef = none →
      fs.hasFile (repoPath ++ "/refs/heads/" ++ repo.default_branch) = false →
      env.setTimesFaultPacked = some k → k ≠ .notFound →
      update_mtime repoPath repo env fs =
        (.error (.io k (repoPath ++ "/packed-refs")), fs, [])) ∧
    (∀ k : IoErrorKind, env.setTimesFaultRef = none → env.setTimesFaultPacked = none →
      fs.hasFile (repoPath ++ "/refs/heads/" ++ repo.default_branch) = false →
      fs.hasFile (repoPath ++ "/packed-refs") = false →
      env.createDirFault = some k →
      update_mtime repoPath repo env fs =
        (.error (.io k (repoPath ++ "/info/web")), fs, [])) := by
  refine ⟨?_, ?_, ?_, ?_, ?_, ?_, ?_⟩
  · intro hf1 href
    constructor
    · simp only [update_mtime, hparse, setFileTimes, hf1, href, if_true]
    · exact Fs.hasFile_setMtime fs _ t _
  · intro hf1 hf2 href hpacked
    simp only [update_mtime, hparse, setFileTimes, hf1, hf2, href, hpacked,
      Bool.false_eq_true, if_false, if_true]
  · intro hf1 hf2 hf3 hf4 href hpacked hweb hpar
    have hmain : update_mtime repoPath repo env fs =
        (.ok (),
          Fs.writeFile { fs with dirs := (repoPath ++ "/info/web") :: fs.dirs }
            (repoPath ++ "/info/web" ++ "/last-modified") (repo.pushed_at ++ "\n"),
          [.fsCreateDir (repoPath ++ "/info/web"),
           .fsWriteFile (repoPath ++ "/info/web" ++ "/last-modified") (repo.pushed_at ++ "\n")]) := by
      simp only [update_mtime, hparse, setFileTimes, hf1, hf2, href, hpacked,
        Bool.false_eq_true, if_false, set_agefile_time, createDir, hf3, hweb, hpar,
        if_true, hf4]
    rw [hmain]
    exact ⟨rfl, Fs.fileContent_writeFile _ _ _⟩
  · intro k hk hknf
    cases k with
    | notFound => exact absurd rfl hknf
    | alreadyExists => simp only [update_mtime, hparse, setFileTimes, hk]
    | other code => simp only [update_mtime, hparse, setFileTimes, hk]
  · intro hf1 hf2 hf3 href hpacked hweb
    simp only [update_mtime, hparse, setFileTimes, hf1, hf2, href, hpacked,
      Bool.false_eq_true, if_false, set_agefile_time, createDir, hf3, hweb, if_true]
  · intro k hf1 href hk hknf
    cases k with
    | notFound => exact absurd rfl hknf
    | alreadyExists =>
        simp only [update_mtime, hparse, setFileTimes, hf1, href,
          Bool.false_eq_true, if_false, hk]
    | other code =>
        simp only [update_mtime, hparse, setFileTimes, hf1, href,
          Bool.false_eq_true, if_false, hk]
  · intro k hf1 hf2 href hpacked hk
    simp only [update_mtime, hparse, setFileTimes, hf1, hf2, href, hpacked,
      Bool.false_eq_true, if_false, set_agefile_time, createDir, hk]

/-- C6 counterexample: on a mirror with no ref file and no packed-refs
file whose `info/web` directory already exists, the projection fails with
`AlreadyExists` instead of overwriting the age-record file, and no
age-record file is written; moreover, when the age-record file is created
(fresh `info/web`), its content is the timestamp followed by a newline,
not the bare timestamp string. -/
theorem c6_counterexample_agefile_not_overwritten_and_newline :
    (update_mtime "/m/r.git" c6Repo {} c6FsWebDir).1 =
      .error (.io .alreadyExists "/m/r.git/info/web") ∧
    (update_mtime "/m/r.git" c6Repo {} c6FsWebDir).2.1 = c6FsWebDir ∧
    Fs.hasFile (update_mtime "/m/r.git" c6Repo {} c6FsWebDir).2.1
      "/m/r.git/info/web/last-modified" = false ∧
    Fs.fileContent (update_mtime "/m/r.git" c6Repo {} c6FsNoRefs).2.1
        "/m/r.git/info/web/last-modified" =
      some "2021-01-01T00:00:00Z\n" ∧
    "2021-01-01T00:00:00Z\n" ≠ "2021-01-01T00:00:00Z" := by
  decide

/-- C6 witness: the amended projection behaviour at concrete mirrors — the
ref file present (its mtime is set, no age file appears); the ref and
packed-refs files absent with a fresh `info/web` (the age file is written
with the timestamp plus newline); and a non-not-found fault at the
packed-refs step returned as the failure rather than masked. -/
theorem c6_mtime_projection_witness :
    (update_mtime "/m/r.git" c6Repo {} c4Fs =
      (.ok (), Fs.setMtime c4Fs "/m/r.git/refs/heads/master" ⟨1609459200, 0⟩,
        [.fsSetFileTimes "/m/r.git/refs/heads/master" ⟨1609459200, 0⟩]) ∧
      Fs.hasFile (Fs.setMtime c4Fs "/m/r.git/refs/heads/master" ⟨1609459200, 0⟩)
          "/m/r.git/info/web/last-modified" =
        Fs.hasFile c4Fs "/m/r.git/info/web/last-modified") ∧
    (update_mtime "/m/r.git" c6Repo {} c6FsNoRefs).1 = .ok () ∧
    (update_mtime "/m/r.git" c6Repo {} c6FsNoRefs).2.1.fileContent
      ("/m/r.git" ++ "/info/web" ++ "/last-modified") = some ("2021-01-01T00:00:00Z" ++ "\n") ∧
    update_mtime "/m/r.git" c6Repo { setTimesFaultPacked := some (.other 13) } c6FsNoRefs =
      (.error (.io (.other 13) ("/m/r.git" ++ "/packed-refs")), c6FsNoRefs, []) := by
  have h1 := c6_mtime_projection "/m/r.git" c6Repo {} c4Fs ⟨1609459200, 0⟩ (by decide)
  have h2 := c6_mtime_projection "/m/r.git" c6Repo {} c6FsNoRefs ⟨1609459200, 0⟩ (by decide)
  have h4 := c6_mtime_projection "/m/r.git" c6Repo
    { setTimesFaultPacked := some (.other 13) } c6FsNoRefs ⟨1609459200, 0⟩ (by decide)
  have h3 := h2.2.2.1 (by decide) (by decide) (by decide) (by decide) (by decide) (by decide)
    (by decide) (by decide)
  exact ⟨h1.1 (by decide) (by decide), h3.1, h3.2,
    h4.2.2.2.2.2.1 (.other 13) (by decide) (by decide) (by decide) (by decide)⟩

/-! ### C9 — an unparsable push time blocks create and refresh -/

/-- C9: `update_mtime` parses the descriptor's `pushed_at` (not the derived
effective timestamp) before touching any file, so on an unparsable push
time it fails leaving the filesystem untouched with no effects; since both
`mirror` and `update` end with `update_mtime`, both fail for such a
descriptor whatever the collaborators do. -/
theorem c9_unparsable_push_time_blocks_mirror_and_update
    (clonePath repoPath : String) (repo : GithubRepo) (base : Option String)
    (current : DbRepo) (env : Env) (fs : Fs)
    (hp : parse_from_rfc3339 repo.pushed_at = none) :
    update_mtime repoPath repo env fs = (.error (.parseTime repo.pushed_at), fs, []) ∧
    resultIsError (mirror clonePath repo base env fs) = true ∧
    resultIsError (update repoPath current repo env fs) = true := by
  have hm : ∀ (p : String) (fs2 : Fs), update_mtime p repo env fs2 =
      (.error (.parseTime repo.pushed_at), fs2, []) := by
    intro p fs2
    simp only [update_mtime, hp]
  refine ⟨hm repoPath fs, ?_, ?_⟩
  · unfold mirror
    cases hg : env.gitMirrorResult with
    | some code => simp [resultIsError]
    | none =>
        rcases hc : mirror_copy_step clonePath base env fs with ⟨r1, fs1, e1⟩
        cases r1 with
        | error e => simp [resultIsError, hc]
        | ok u =>
            rcases hd : mirror_defbranch_step clonePath repo env fs1 with ⟨r2, fs2, e2⟩
            cases r2 with
            | error e => simp [resultIsError, hc, hd]
            | ok v => simp [resultIsError, hc, hd, hm]
  · unfold update
    cases hg : env.gitUpdateResult with
    | some code => simp [resultIsError]
    | none =>
        rcases hc : update_desc_step repoPath current repo env fs with ⟨r1, fs1, e1⟩
        cases r1 with
        | error e => simp [resultIsError, hc]
        | ok u =>
            rcases hd : update_branch_step repoPath current repo env fs1 with ⟨r2, fs2, e2⟩
            cases r2 with
            | error e => simp [resultIsError, hc, hd]
            | ok v => simp [resultIsError, hc, hd, hm]

/-- C9 witness: the concrete descriptor with unparsable push time `not-a-time`. -/
theorem c9_unparsable_push_time_witness :
    update_mtime "/m/r.git" c8Panic {} c4Fs =
      (.error (.parseTime "not-a-time"), c4Fs, []) ∧
    resultIsError (mirror "/m/r.git" c8Panic none {} c4Fs) = true ∧
    resultIsError (update "/m/r.git" c5Stored c8Panic {} c4Fs) = true := by
  have h := c9_unparsable_push_time_blocks_mirror_and_update "/m/r.git" "/m/r.git"
    c8Panic none c5Stored {} c4Fs (by decide)
  exact h

/-! ### C10 — no default-branch reconciliation when the stored branch is absent -/

/-- Writing the age file never switches a branch or appends to a cgitrc. -/
theorem set_agefile_time_no_branch_effects (p u : String) (env : Env) (fs : Fs) :
    hasChangeBranch (set_agefile_time p u env fs).2.2 = false ∧
    hasCgitrcAppend (set_agefile_time p u env fs).2.2 = false := by
  unfold set_agefile_time
  cases hc : createDir fs (p ++ "/info/web") env.createDirFault with
  | error k => simp [hc, hasChangeBranch, hasCgitrcAppend]
  | ok fs1 =>
      cases hw : env.agefileWriteFault with
      | some k => simp [hc, hw, hasChangeBranch, hasCgitrcAppend]
      | none => simp [hc, hw, hasChangeBranch, hasCgitrcAppend]

/-- Timestamp projection never switches a branch or appends to a cgitrc. -/
theorem update_mtime_no_branch_effects (p : String) (repo : GithubRepo)
    (env : Env) (fs : Fs) :
    hasChangeBranch (update_mtime p repo env fs).2.2 = false ∧
    hasCgitrcAppend (update_mtime p repo env fs).2.2 = false := by
  unfold update_mtime
  cases hp : parse_from_rfc3339 repo.pushed_at with
  | none => simp [hp, hasChangeBranch, hasCgitrcAppend]
  | some t =>
      cases h1 : setFileTimes fs (p ++ "/refs/heads/" ++ repo.default_branch) t
          env.setTimesFaultRef with
      | ok fs1 => simp [hp, h1, hasChangeBranch, hasCgitrcAppend]
      | error k =>
          cases k with
          | notFound =>
              cases h2 : setFileTimes fs (p ++ "/packed-refs") t env.setTimesFaultPacked with
              | ok fs1 => simp [hp, h1, h2, hasChangeBranch, hasCgitrcAppend]
              | error k2 =>
                  cases k2 with
                  | notFound =>
                      simp only [hp, h1, h2]
                      exact set_agefile_time_no_branch_effects p repo.pushed_at env fs
                  | alreadyExists => simp [hp, h1, h2, hasChangeBranch, hasCgitrcAppend]
                  | other c => simp [hp, h1, h2, hasChangeBranch, hasCgitrcAppend]
          | alreadyExists => simp [hp, h1, hasChangeBranch, hasCgitrcAppend]
          | other c => simp [hp, h1, hasChangeBranch, hasCgitrcAppend]

/-- Rewriting the description file never switches a branch or appends to a
cgitrc. -/
theorem update_description_no_branch_effects (p d : String) (env : Env) (fs : Fs) :
    hasChangeBranch (update_description p d env fs).2.2 = false ∧
    hasCgitrcAppend (update_description p d env fs).2.2 = false := by
  unfold update_description
  cases hf : env.descriptionWriteFault with
  | some k => simp [hf, hasChangeBranch, hasCgitrcAppend]
  | none =>
      cases hh : fs.hasFile (p ++ "/description") with
      | true => simp [hf, hh, hasChangeBranch, hasCgitrcAppend]
      | false => simp [hf, hh, hasChangeBranch, hasCgitrcAppend]

/-- The description step of a refresh never switches a branch or appends
to a cgitrc. -/
theorem update_desc_step_no_branch_effects (p : String) (current : DbRepo)
    (repo : GithubRepo) (env : Env) (fs : Fs) :
    hasChangeBranch (update_desc_step p current repo env fs).2.2 = false ∧
    hasCgitrcAppend (update_desc_step p current repo env fs).2.2 = false := by
  unfold update_desc_step
  by_cases h : current.descriptionStr ≠ repo.descriptionStr
  · rw [if_pos h]
    exact update_description_no_branch_effects p repo.descriptionStr env fs
  · rw [if_neg h]
    simp [hasChangeBranch, hasCgitrcAppend]

/-- C10: when the stored record carries no default branch, a refresh
performs no branch reconciliation at all — no git-level HEAD switch and no
cgitrc append, whatever the descriptor's default branch — while the
subsequent catalog write replaces the record with the one derived from the
descriptor, whose default branch is the descriptor's (hence no longer
absent). -/
theorem c10_no_branch_reconciliation_when_stored_branch_absent
    (repoPath : String) (current : DbRepo) (repo : GithubRepo) (env : Env) (fs : Fs)
    (hnone : current.default_branch = none) :
    hasChangeBranch (update repoPath current repo env fs).2.2 = false ∧
    hasCgitrcAppend (update repoPath current repo env fs).2.2 = false ∧
    (∀ (db : Catalog) (cfg : Config) (dbRepo : DbRepo) (fs1 : Fs) (effs : List Effect),
      sizeFilterPasses repo cfg = true →
      dbRepoFrom repo = some dbRepo →
      repo_get db repo.id = some current →
      repo_is_updated db dbRepo = true →
      update (clone_path cfg.mirrorRoot repo) current repo env fs = (.ok (), fs1, effs) →
      process_repo repo db cfg env fs =
        (.refreshed, repo_update db dbRepo, fs1,
          [Effect.dbGet repo.id, Effect.dbIsUpdated repo.id] ++ effs ++
            [Effect.dbUpdate repo.id]) ∧
      repo_get (repo_update db dbRepo) repo.id = some dbRepo ∧
      dbRepo.default_branch = some repo.default_branch) := by
  have hbranch : ∀ fs2 : Fs, update_branch_step repoPath current repo env fs2 =
      (.ok (), fs2, []) := by
    intro fs2
    unfold update_branch_step
    rw [hnone]
  have h12 : hasChangeBranch (update repoPath current repo env fs).2.2 = false ∧
      hasCgitrcAppend (update repoPath current repo env fs).2.2 = false := by
    unfold update
    cases hg : env.gitUpdateResult with
    | some code => simp [hasChangeBranch, hasCgitrcAppend]
    | none =>
        rcases hc : update_desc_step repoPath current repo env fs with ⟨r1, fs1, e1⟩
        have hdesc := update_desc_step_no_branch_effects repoPath current repo env fs
        rw [hc] at hdesc
        simp only [hasChangeBranch, hasCgitrcAppend] at hdesc
        cases r1 with
        | error e =>
            simp [hc, hasChangeBranch, hasCgitrcAppend, hdesc.1, hdesc.2]
        | ok u =>
            rcases hm : update_mtime repoPath repo env fs1 with ⟨r3, fs3, e3⟩
            have hmt := update_mtime_no_branch_effects repoPath repo env fs1
            rw [hm] at hmt
            simp only [hasChangeBranch, hasCgitrcAppend] at hmt
            simp [hc, hbranch, hm, hasChangeBranch, hasCgitrcAppend, List.any_append,
              hdesc.1, hdesc.2, hmt.1, hmt.2]
  refine ⟨h12.1, h12.2, ?_⟩
  intro db cfg dbRepo fs1 effs hsize hfrom hget hup hok
  have hid : dbRepo.id = repo.id := dbRepoFrom_id hfrom
  refine ⟨?_, repo_get_repo_update db dbRepo repo.id current hget hid,
    dbRepoFrom_default_branch hfrom⟩
  rw [process_repo_eq_rest repo db cfg env fs hsize]
  simp only [process_repo_rest, hfrom, hget, hup, if_true, hok]

/-- C10 witness: a stored record with no default branch and a descriptor on
`main` — the refresh performs no branch switch and no cgitrc write, yet the
replaced record carries `main`. -/
theorem c10_no_branch_reconciliation_witness :
    hasChangeBranch (update "/m/r.git" c10Current c10Repo {} c10Fs).2.2 = false ∧
    hasCgitrcAppend (update "/m/r.git" c10Current c10Repo {} c10Fs).2.2 = false ∧
    process_repo c10Repo [c10Current] { mirrorRoot := "/m" } {} c10Fs =
      (.refreshed, [c10Rec], c10Fs1,
        [Effect.dbGet 1, Effect.dbIsUpdated 1] ++ c10Effs ++ [Effect.dbUpdate 1]) ∧
    repo_get (repo_update [c10Current] c10Rec) 1 = some c10Rec ∧
    c10Rec.default_branch = some "main" := by
  have h := c10_no_branch_reconciliation_when_stored_branch_absent "/m/r.git"
    c10Current c10Repo {} c10Fs (by decide)
  have h2 := h.2.2 [c10Current] { mirrorRoot := "/m" } c10Rec c10Fs1 c10Effs
    (by decide) (by decide) (by decide) (by decide) (by decide)
  exact ⟨h.1, h.2.1, h2.1, h2.2.1, h2.2.2⟩

/-! ### C8 — error accumulation at the run level -/

/-- C8: a repository whose timestamp derivation panics (parsable update
time, unparsable push time) is a per-repository failure that is not
captured at the worker boundary: the run aborts through the propagated
panic (process exit 101) with an empty accumulated error list, so nothing
is reported and the exit code is non-zero with an empty error set —
against the claimed "captured, labeled, accumulated, and exit non-zero iff
errors non-empty".  For ordinary `Result` errors the machinery does behave
as claimed: the failing repository's error is collected, labeled with its
name, siblings still process, and the exit code is `SOFTWARE` (70). -/
theorem c8_panic_escapes_error_accumulation :
    (runModel c8TasksPanic [] { mirrorRoot := "/m" } c4Fs).1 =
      [("r", .created), ("r2", .panicked)] ∧
    runExit c8TasksPanic [] { mirrorRoot := "/m" } c4Fs = .panic ∧
    exitCode (runExit c8TasksPanic [] { mirrorRoot := "/m" } c4Fs) = 101 ∧
    runErrors (runModel c8TasksPanic [] { mirrorRoot := "/m" } c4Fs).1 = [] ∧
    (runModel c8TasksErr [] { mirrorRoot := "/m" } c4Fs).1 =
      [("r", .created), ("r3", .failed (.git 5))] ∧
    runExit c8TasksErr [] { mirrorRoot := "/m" } c4Fs = .errors [("r3", .git 5)] ∧
    exitCode (runExit c8TasksErr [] { mirrorRoot := "/m" } c4Fs) = 70 := by
  decide
